import Mathlib

/-!
# Verification of the Laplacian-pyramid image blending core

Shallow embedding of `services/imageProcessor.ts`: the `FloatImage` class,
the `downsampleFloat` / `upsampleFloat` resampling operators, and the
`processPyramidBlending` entry point (Gaussian pyramids, Laplacian
pyramids, per-level mask blending, reconstruction).

Modelling conventions:
* Pixel samples the source stores in `Float32Array` are modelled as exact
  rationals (`ℚ`); IEEE rounding is abstracted away.  The claims treated
  here concern the algebraic structure of the pipeline (which values are
  clamped, which mask channel is read, dimensions and lengths), which the
  abstraction preserves.
* An `HTMLCanvasElement` with its 8-bit `ImageData` is the `Canvas`
  structure: three row-major channel planes of naturals (alpha is
  constantly 255 in the source and is omitted).  Writing a sample into
  `ImageData` performs the ECMAScript `Uint8ClampedArray` conversion:
  clamp to `[0, 255]`, then round to the nearest integer, ties to even
  (`toByte` below); the source additionally pre-clamps with
  `Math.min(255, Math.max(0, v))`, which the clamp absorbs.
* The browser primitives the source delegates to — `drawImage` scaling
  with the `blur(2px)` context filter set (in `downsampleFloat`), plain
  `drawImage` scaling, and a same-size `blur(2px)` draw (both in
  `upsampleFloat`) — are an explicit `Kernel` parameter: per-channel
  plane transforms.  With opaque alpha the canvas pipeline filters each
  channel independently, which is exactly the interface the source
  relies on.  `Kernel.WF` records what every browser guarantees: the
  drawn canvas has the requested size and 8-bit samples.
-/

namespace ImageBlend

/-- An 8-bit canvas: `ImageData` of `width × height` RGBA pixels with the
alpha plane (constantly 255 in the source) omitted.  Row-major planes. -/
structure Canvas where
  width : Nat
  height : Nat
  r : List Nat
  g : List Nat
  b : List Nat
deriving DecidableEq, Inhabited

/-- The source's `FloatImage` class: per-channel `Float32Array` buffers of
length `width * height`, modelled with exact rationals. -/
structure FloatImage where
  width : Nat
  height : Nat
  r : List ℚ
  g : List ℚ
  b : List ℚ
deriving DecidableEq, Inhabited

/-- ECMAScript `ToUint8Clamp` rounding step: nearest integer, ties to the
even one (applied after clamping to `[0, 255]`). -/
def roundTiesEven (x : ℚ) : ℤ :=
  if x - ⌊x⌋ < 1/2 then ⌊x⌋
  else if 1/2 < x - ⌊x⌋ then ⌊x⌋ + 1
  else if ⌊x⌋ % 2 = 0 then ⌊x⌋ else ⌊x⌋ + 1

/-- Storing a float sample into a `Uint8ClampedArray` slot: clamp to
`[0, 255]`, then round ties-to-even. -/
def toByte (x : ℚ) : ℕ :=
  (roundTiesEven (min 255 (max 0 x))).toNat

/-- `FloatImage.toCanvas`: write each channel through the 8-bit clamp
(the source computes `Math.min(255, Math.max(0, v))` into `ImageData`). -/
def FloatImage.toCanvas (img : FloatImage) : Canvas :=
  { width := img.width
    height := img.height
    r := (List.range (img.width * img.height)).map fun p => toByte (img.r.getD p 0)
    g := (List.range (img.width * img.height)).map fun p => toByte (img.g.getD p 0)
    b := (List.range (img.width * img.height)).map fun p => toByte (img.b.getD p 0) }

/-- `FloatImage.toVisualCanvas`: the "visualize band" conversion — offset
every sample by `+128` before the 8-bit clamp, so zero detail renders as
neutral gray. -/
def FloatImage.toVisualCanvas (img : FloatImage) : Canvas :=
  { width := img.width
    height := img.height
    r := (List.range (img.width * img.height)).map fun p => toByte (img.r.getD p 0 + 128)
    g := (List.range (img.width * img.height)).map fun p => toByte (img.g.getD p 0 + 128)
    b := (List.range (img.width * img.height)).map fun p => toByte (img.b.getD p 0 + 128) }

/-- `FloatImage.fromCanvas`: read the 8-bit samples into float channels. -/
def FloatImage.fromCanvas (c : Canvas) : FloatImage :=
  { width := c.width
    height := c.height
    r := (List.range (c.width * c.height)).map fun p => ((c.r.getD p 0 : ℕ) : ℚ)
    g := (List.range (c.width * c.height)).map fun p => ((c.g.getD p 0 : ℕ) : ℚ)
    b := (List.range (c.width * c.height)).map fun p => ((c.b.getD p 0 : ℕ) : ℚ) }

/-- The browser canvas primitives `downsampleFloat` / `upsampleFloat`
delegate to, as per-channel plane transforms:
`scaleBlurPlane pl sw sh dw dh` is a scaling `drawImage` with the
`blur(2px)` filter set, `scalePlane` is a plain scaling `drawImage`, and
`blurPlane pl w h` is a same-size `blur(2px)` draw. -/
structure Kernel where
  scaleBlurPlane : List ℕ → ℕ → ℕ → ℕ → ℕ → List ℕ
  scalePlane : List ℕ → ℕ → ℕ → ℕ → ℕ → List ℕ
  blurPlane : List ℕ → ℕ → ℕ → List ℕ

/-- What every browser guarantees about a draw: the produced `ImageData`
plane has the target canvas's size and 8-bit samples. -/
def Kernel.WF (k : Kernel) : Prop :=
  (∀ pl sw sh dw dh, (k.scaleBlurPlane pl sw sh dw dh).length = dw * dh ∧
    ∀ x ∈ k.scaleBlurPlane pl sw sh dw dh, x ≤ 255) ∧
  (∀ pl sw sh dw dh, (k.scalePlane pl sw sh dw dh).length = dw * dh ∧
    ∀ x ∈ k.scalePlane pl sw sh dw dh, x ≤ 255) ∧
  (∀ pl w h, (k.blurPlane pl w h).length = w * h ∧
    ∀ x ∈ k.blurPlane pl w h, x ≤ 255)

/-- `downsampleFloat` (the Reduce operator): render the float image to an
8-bit canvas, halve the dimensions, and draw it scaled with the blur
filter; if either halved dimension is zero, the input is returned
unchanged (`if(w === 0 || h === 0) return img;`). -/
def downsampleFloat (k : Kernel) (img : FloatImage) : FloatImage :=
  let c := img.toCanvas
  let w := c.width / 2
  let h := c.height / 2
  if w = 0 ∨ h = 0 then img
  else
    FloatImage.fromCanvas
      { width := w
        height := h
        r := k.scaleBlurPlane c.r c.width c.height w h
        g := k.scaleBlurPlane c.g c.width c.height w h
        b := k.scaleBlurPlane c.b c.width c.height w h }

/-- `upsampleFloat` (the Expand operator): render the float image to an
8-bit canvas, draw it scaled to the target size, then draw the result
once more with the blur filter, and read the samples back. -/
def upsampleFloat (k : Kernel) (img : FloatImage) (targetW targetH : ℕ) : FloatImage :=
  let c := img.toCanvas
  let large : Canvas :=
    { width := targetW
      height := targetH
      r := k.scalePlane c.r c.width c.height targetW targetH
      g := k.scalePlane c.g c.width c.height targetW targetH
      b := k.scalePlane c.b c.width c.height targetW targetH }
  let blurred : Canvas :=
    { width := targetW
      height := targetH
      r := k.blurPlane large.r targetW targetH
      g := k.blurPlane large.g targetW targetH
      b := k.blurPlane large.b targetW targetH }
  FloatImage.fromCanvas blurred

/-- `i`-fold application of `downsampleFloat`: the value of the running
variable (`currA` / `currB` / `currM`) after `i` iterations of the
Gaussian-pyramid loop in `processPyramidBlending`. -/
def reduceIter (k : Kernel) (img : FloatImage) : ℕ → FloatImage
  | 0 => img
  | n + 1 => downsampleFloat k (reduceIter k img n)

/-- The Gaussian pyramid built by the loop
`GA.push(currA); for i < levels { currA = downsampleFloat(currA); GA.push(currA) }`:
entry `i` is `reduceIter i`. -/
def gaussianPyramid (k : Kernel) (img : FloatImage) (levels : ℕ) : List FloatImage :=
  (List.range (levels + 1)).map (reduceIter k img)

/-- Per-pixel signed subtraction into a fresh `FloatImage` of `a`'s
dimensions (the Laplacian loop body `lap.c[p] = G[i].c[p] - up.c[p]`). -/
def subPixels (a up : FloatImage) : FloatImage :=
  { width := a.width
    height := a.height
    r := (List.range (a.width * a.height)).map fun p => a.r.getD p 0 - up.r.getD p 0
    g := (List.range (a.width * a.height)).map fun p => a.g.getD p 0 - up.g.getD p 0
    b := (List.range (a.width * a.height)).map fun p => a.b.getD p 0 - up.b.getD p 0 }

/-- The Laplacian pyramid derived from a Gaussian pyramid `G` in
`processPyramidBlending`: for `i < levels`,
`L[i] = G[i] - upsampleFloat(G[i+1], G[i].width, G[i].height)` pixelwise,
and the top entry is `G[levels]` pushed unchanged. -/
def laplacianPyramid (k : Kernel) (G : List FloatImage) (levels : ℕ) : List FloatImage :=
  ((List.range levels).map fun i =>
    subPixels (G.getD i default)
      (upsampleFloat k (G.getD (i + 1) default)
        (G.getD i default).width (G.getD i default).height))
  ++ [G.getD levels default]

/-- One iteration of the blend loop: a fresh `FloatImage` of `la`'s
dimensions with `out.c[p] = la.c[p] * alpha + lb.c[p] * (1 - alpha)`
where `alpha = m.r[p] / 255` — the mask's red channel for all three
output channels. -/
def blendLevel (la lb m : FloatImage) : FloatImage :=
  { width := la.width
    height := la.height
    r := (List.range (la.width * la.height)).map fun p =>
      la.r.getD p 0 * (m.r.getD p 0 / 255) + lb.r.getD p 0 * (1 - m.r.getD p 0 / 255)
    g := (List.range (la.width * la.height)).map fun p =>
      la.g.getD p 0 * (m.r.getD p 0 / 255) + lb.g.getD p 0 * (1 - m.r.getD p 0 / 255)
    b := (List.range (la.width * la.height)).map fun p =>
      la.b.getD p 0 * (m.r.getD p 0 / 255) + lb.b.getD p 0 * (1 - m.r.getD p 0 / 255) }

/-- The blended Laplacian pyramid `L_Out`: `blendLevel` applied at every
level `0 .. levels` inclusive. -/
def blendPyramids (LA LB GM : List FloatImage) (levels : ℕ) : List FloatImage :=
  (List.range (levels + 1)).map fun i =>
    blendLevel (LA.getD i default) (LB.getD i default) (GM.getD i default)

/-- Per-pixel addition into a fresh `FloatImage` of `l`'s dimensions (the
reconstruction loop body `blended.c[p] = L_Out[i].c[p] + up.c[p]`). -/
def addPixels (l up : FloatImage) : FloatImage :=
  { width := l.width
    height := l.height
    r := (List.range (l.width * l.height)).map fun p => l.r.getD p 0 + up.r.getD p 0
    g := (List.range (l.width * l.height)).map fun p => l.g.getD p 0 + up.g.getD p 0
    b := (List.range (l.width * l.height)).map fun p => l.b.getD p 0 + up.b.getD p 0 }

/-- The reconstruction loop `for i = n-1 down to 0`, with `n` the number
of levels still to be folded in and `cur` the running image:
`cur = L[i] + upsampleFloat(cur, L[i].width, L[i].height)`. -/
def reconstructFrom (k : Kernel) (L : List FloatImage) : ℕ → FloatImage → FloatImage
  | 0, cur => cur
  | n + 1, cur =>
    let li := L.getD n default
    reconstructFrom k L n (addPixels li (upsampleFloat k cur li.width li.height))

/-- Collapse a blended pyramid: start from `L_Out[levels]` and fold the
finer levels in, exactly as step 4 of `processPyramidBlending`. -/
def reconstruct (k : Kernel) (L : List FloatImage) (levels : ℕ) : FloatImage :=
  reconstructFrom k L levels (L.getD levels default)

/-- The record `processPyramidBlending` returns (canvases). -/
structure BlendOutput where
  result : Canvas
  laplacians : List Canvas
  gaussiansA : List Canvas
  gaussiansB : List Canvas
deriving DecidableEq

/-- The single entry point `processPyramidBlending(canvasA, canvasB,
canvasMask, levels)`: build the three Gaussian pyramids, derive the two
Laplacian pyramids, blend them level by level against the mask's Gaussian
pyramid, reconstruct, and render the outputs (the blended detail levels
through the `toVisualCanvas` offset mode, the result through `toCanvas`).
The source performs no validation of its inputs. -/
def processPyramidBlending (k : Kernel) (canvasA canvasB canvasMask : Canvas)
    (levels : ℕ) : BlendOutput :=
  let GA := gaussianPyramid k (FloatImage.fromCanvas canvasA) levels
  let GB := gaussianPyramid k (FloatImage.fromCanvas canvasB) levels
  let GM := gaussianPyramid k (FloatImage.fromCanvas canvasMask) levels
  let LA := laplacianPyramid k GA levels
  let LB := laplacianPyramid k GB levels
  let LOut := blendPyramids LA LB GM levels
  { result := (reconstruct k LOut levels).toCanvas
    laplacians := LOut.map FloatImage.toVisualCanvas
    gaussiansA := GA.map FloatImage.toCanvas
    gaussiansB := GB.map FloatImage.toCanvas }

/-- The dimension step a single `downsampleFloat` performs: halve both
dimensions, unless either half floors to zero, in which case both
dimensions are kept. -/
def dimStep (wh : ℕ × ℕ) : ℕ × ℕ :=
  if wh.1 / 2 = 0 ∨ wh.2 / 2 = 0 then wh else (wh.1 / 2, wh.2 / 2)

/-- One plausible platform rasterizer: nearest-neighbour point sampling
for scaling draws (a browser with image smoothing disabled) and an
identity-shaped blur.  Used to instantiate theorems at concrete inputs. -/
def nearestKernel : Kernel where
  scaleBlurPlane := fun pl sw sh dw dh =>
    (List.range (dw * dh)).map fun p =>
      min 255 (pl.getD ((p / dw * sh / dh) * sw + p % dw * sw / dw) 0)
  scalePlane := fun pl sw sh dw dh =>
    (List.range (dw * dh)).map fun p =>
      min 255 (pl.getD ((p / dw * sh / dh) * sw + p % dw * sw / dw) 0)
  blurPlane := fun pl w h =>
    (List.range (w * h)).map fun p => min 255 (pl.getD p 0)

/-- Another plausible platform rasterizer: 2×2 box averaging on halving
draws (the bilinear filtering of a smoothing browser). -/
def boxKernel : Kernel where
  scaleBlurPlane := fun pl sw _sh dw dh =>
    (List.range (dw * dh)).map fun p =>
      min 255 ((pl.getD (2 * (p / dw) * sw + 2 * (p % dw)) 0
        + pl.getD (2 * (p / dw) * sw + 2 * (p % dw) + 1) 0
        + pl.getD ((2 * (p / dw) + 1) * sw + 2 * (p % dw)) 0
        + pl.getD ((2 * (p / dw) + 1) * sw + 2 * (p % dw) + 1) 0) / 4)
  scalePlane := fun pl sw sh dw dh =>
    (List.range (dw * dh)).map fun p =>
      min 255 (pl.getD ((p / dw * sh / dh) * sw + p % dw * sw / dw) 0)
  blurPlane := fun pl w h =>
    (List.range (w * h)).map fun p => min 255 (pl.getD p 0)

/-- Agreement of two float images on dimensions and the red channel. -/
def REq (x y : FloatImage) : Prop :=
  x.width = y.width ∧ x.height = y.height ∧ x.r = y.r

/-! ## Concrete inputs for counterexamples and witnesses -/

/-- A 1×1 canvas with all channels 100. -/
def canvasOne : Canvas := ⟨1, 1, [100], [100], [100]⟩

/-- A 1×4 canvas: one dimension already degenerate, the other not. -/
def canvasTall : Canvas := ⟨1, 4, [10, 10, 10, 10], [10, 10, 10, 10], [10, 10, 10, 10]⟩

/-- A 4×4 canvas. -/
def canvasSquare : Canvas :=
  ⟨4, 4, List.replicate 16 7, List.replicate 16 7, List.replicate 16 7⟩

/-- A 2×2 canvas whose channels are not constant. -/
def canvasTwo : Canvas :=
  ⟨2, 2, [0, 255, 255, 255], [0, 255, 255, 255], [0, 255, 255, 255]⟩

/-- A signed detail raster: 1×1 with all channels −64 (as a band-pass
value can be after the Laplacian subtraction). -/
def negDetail : FloatImage := ⟨1, 1, [-64], [-64], [-64]⟩

/-- A 2×2 image B for the dimension-mismatch input. -/
def canvasBigB : Canvas :=
  ⟨2, 2, List.replicate 4 50, List.replicate 4 50, List.replicate 4 50⟩

/-- A 2×2 all-white mask for the dimension-mismatch input. -/
def canvasBigM : Canvas :=
  ⟨2, 2, List.replicate 4 255, List.replicate 4 255, List.replicate 4 255⟩

/-- 1×1 image A with green 100. -/
def canvasA4 : Canvas := ⟨1, 1, [0], [100], [0]⟩

/-- 1×1 image B with green 200. -/
def canvasB4 : Canvas := ⟨1, 1, [0], [200], [0]⟩

/-- 1×1 mask: red 255 but green and blue 0. -/
def canvasM4 : Canvas := ⟨1, 1, [255], [0], [0]⟩

/-- 1×1 mask agreeing with `canvasM4` on red, differing on green/blue. -/
def canvasM9 : Canvas := ⟨1, 1, [255], [7], [7]⟩

/-! ## Basic access and length lemmas -/

theorem getD_range_map {α : Type} (f : ℕ → α) (d : α) {p n : ℕ} (h : p < n) :
    ((List.range n).map f).getD p d = f p := by
  simp [List.getD_eq_getElem?_getD, List.getElem?_map, List.getElem?_range, h]

theorem gaussianPyramid_length (k : Kernel) (img : FloatImage) (levels : ℕ) :
    (gaussianPyramid k img levels).length = levels + 1 := by
  simp [gaussianPyramid]

theorem gaussianPyramid_getD (k : Kernel) (img : FloatImage) {levels i : ℕ}
    (h : i ≤ levels) (d : FloatImage) :
    (gaussianPyramid k img levels).getD i d = reduceIter k img i :=
  getD_range_map _ _ (Nat.lt_succ_of_le h)

theorem laplacianPyramid_length (k : Kernel) (G : List FloatImage) (levels : ℕ) :
    (laplacianPyramid k G levels).length = levels + 1 := by
  simp [laplacianPyramid]

theorem laplacianPyramid_getD_lt (k : Kernel) (G : List FloatImage) {levels i : ℕ}
    (h : i < levels) (d : FloatImage) :
    (laplacianPyramid k G levels).getD i d =
      subPixels (G.getD i default)
        (upsampleFloat k (G.getD (i + 1) default)
          (G.getD i default).width (G.getD i default).height) := by
  rw [laplacianPyramid, List.getD_eq_getElem?_getD,
    List.getElem?_append_left (by simpa using h)]
  simp [List.getElem?_map, List.getElem?_range, h]

theorem laplacianPyramid_getD_top (k : Kernel) (G : List FloatImage) (levels : ℕ)
    (d : FloatImage) :
    (laplacianPyramid k G levels).getD levels d = G.getD levels default := by
  rw [laplacianPyramid, List.getD_eq_getElem?_getD,
    List.getElem?_append_right (by simp)]
  simp

theorem blendPyramids_length (LA LB GM : List FloatImage) (levels : ℕ) :
    (blendPyramids LA LB GM levels).length = levels + 1 := by
  simp [blendPyramids]

theorem blendPyramids_getD (LA LB GM : List FloatImage) {levels i : ℕ}
    (h : i ≤ levels) (d : FloatImage) :
    (blendPyramids LA LB GM levels).getD i d =
      blendLevel (LA.getD i default) (LB.getD i default) (GM.getD i default) :=
  getD_range_map _ _ (Nat.lt_succ_of_le h)

/-! ## Dimension lemmas -/

theorem downsampleFloat_width (k : Kernel) (img : FloatImage) :
    (downsampleFloat k img).width = (dimStep (img.width, img.height)).1 := by
  simp only [downsampleFloat, dimStep, FloatImage.toCanvas, FloatImage.fromCanvas]
  by_cases h : img.width / 2 = 0 ∨ img.height / 2 = 0
  · rw [if_pos h, if_pos h]
  · rw [if_neg h, if_neg h]

theorem downsampleFloat_height (k : Kernel) (img : FloatImage) :
    (downsampleFloat k img).height = (dimStep (img.width, img.height)).2 := by
  simp only [downsampleFloat, dimStep, FloatImage.toCanvas, FloatImage.fromCanvas]
  by_cases h : img.width / 2 = 0 ∨ img.height / 2 = 0
  · rw [if_pos h, if_pos h]
  · rw [if_neg h, if_neg h]

theorem reduceIter_dims (k : Kernel) (img : FloatImage) (i : ℕ) :
    ((reduceIter k img i).width, (reduceIter k img i).height) =
      dimStep^[i] (img.width, img.height) := by
  induction i with
  | zero => rfl
  | succ n ih =>
    rw [Function.iterate_succ_apply', ← ih, reduceIter,
      downsampleFloat_width, downsampleFloat_height]

theorem dimStep_of_min_pos {wh : ℕ × ℕ} (h1 : wh.1 / 2 ≠ 0) (h2 : wh.2 / 2 ≠ 0) :
    dimStep wh = (wh.1 / 2, wh.2 / 2) := by
  rw [dimStep, if_neg]
  rintro (h | h)
  · exact h1 h
  · exact h2 h

theorem dimStep_iterate_of_le {w h : ℕ} (i : ℕ) (hw : 2 ^ i ≤ w) (hh : 2 ^ i ≤ h) :
    dimStep^[i] (w, h) = (w / 2 ^ i, h / 2 ^ i) := by
  induction i with
  | zero => simp
  | succ n ih =>
    have hw' : 2 ^ n ≤ w := le_trans (Nat.pow_le_pow_right (by norm_num) n.le_succ) hw
    have hh' : 2 ^ n ≤ h := le_trans (Nat.pow_le_pow_right (by norm_num) n.le_succ) hh
    rw [Function.iterate_succ_apply', ih hw' hh']
    have hwd : 2 ≤ w / 2 ^ n := by
      rw [Nat.le_div_iff_mul_le (Nat.pos_pow_of_pos n (by norm_num))]
      calc 2 * 2 ^ n = 2 ^ (n + 1) := (pow_succ 2 n).symm ▸ (two_mul (2 ^ n)) ▸ by ring
      _ ≤ w := hw
    have hhd : 2 ≤ h / 2 ^ n := by
      rw [Nat.le_div_iff_mul_le (Nat.pos_pow_of_pos n (by norm_num))]
      calc 2 * 2 ^ n = 2 ^ (n + 1) := by ring
      _ ≤ h := hh
    rw [dimStep_of_min_pos]
    · simp only
      rw [Nat.div_div_eq_div_mul, Nat.div_div_eq_div_mul, pow_succ]
    · simp only
      omega
    · simp only
      omega

theorem dimStep_ge_one {wh : ℕ × ℕ} (h1 : 1 ≤ wh.1) (h2 : 1 ≤ wh.2) :
    1 ≤ (dimStep wh).1 ∧ 1 ≤ (dimStep wh).2 := by
  rw [dimStep]
  split
  · exact ⟨h1, h2⟩
  · rename_i h
    push_neg at h
    omega

theorem dimStep_iterate_ge_one {w h : ℕ} (i : ℕ) (hw : 1 ≤ w) (hh : 1 ≤ h) :
    1 ≤ (dimStep^[i] (w, h)).1 ∧ 1 ≤ (dimStep^[i] (w, h)).2 := by
  induction i with
  | zero => exact ⟨hw, hh⟩
  | succ n ih =>
    rw [Function.iterate_succ_apply']
    exact dimStep_ge_one ih.1 ih.2

theorem upsampleFloat_width (k : Kernel) (img : FloatImage) (tw th : ℕ) :
    (upsampleFloat k img tw th).width = tw := rfl

theorem upsampleFloat_height (k : Kernel) (img : FloatImage) (tw th : ℕ) :
    (upsampleFloat k img tw th).height = th := rfl

theorem subPixels_dims (a up : FloatImage) :
    (subPixels a up).width = a.width ∧ (subPixels a up).height = a.height :=
  ⟨rfl, rfl⟩

theorem blendLevel_dims (la lb m : FloatImage) :
    (blendLevel la lb m).width = la.width ∧ (blendLevel la lb m).height = la.height :=
  ⟨rfl, rfl⟩

theorem addPixels_dims (l up : FloatImage) :
    (addPixels l up).width = l.width ∧ (addPixels l up).height = l.height :=
  ⟨rfl, rfl⟩

theorem laplacianPyramid_getD_dims (k : Kernel) (G : List FloatImage) {levels i : ℕ}
    (h : i ≤ levels) :
    ((laplacianPyramid k G levels).getD i default).width = (G.getD i default).width ∧
      ((laplacianPyramid k G levels).getD i default).height = (G.getD i default).height := by
  rcases Nat.lt_or_ge i levels with hlt | hge
  · rw [laplacianPyramid_getD_lt k G hlt]
    exact subPixels_dims _ _
  · have : i = levels := le_antisymm h hge
    subst this
    rw [laplacianPyramid_getD_top]
    exact ⟨rfl, rfl⟩

/-! ## Evaluation lemmas for the 8-bit conversion -/

theorem roundTiesEven_intCast (n : ℤ) : roundTiesEven ((n : ℤ) : ℚ) = n := by
  unfold roundTiesEven
  rw [Int.floor_intCast, sub_self, if_pos (by norm_num)]

theorem toByte_natCast (n : ℕ) (h : n ≤ 255) : toByte ((n : ℕ) : ℚ) = n := by
  unfold toByte
  rw [max_eq_right (by positivity), min_eq_right (by exact_mod_cast h),
    show ((n : ℕ) : ℚ) = ((n : ℤ) : ℚ) by push_cast; ring,
    roundTiesEven_intCast, Int.toNat_natCast]

theorem toByte_of_nonpos {x : ℚ} (h : x ≤ 0) : toByte x = 0 := by
  unfold toByte
  rw [max_eq_left h, min_eq_right (by norm_num),
    show (0 : ℚ) = ((0 : ℤ) : ℚ) by norm_num, roundTiesEven_intCast]
  rfl

theorem range_one : List.range 1 = [0] := rfl

theorem range_four : List.range 4 = [0, 1, 2, 3] := rfl

theorem toByte_zero : toByte 0 = 0 := toByte_of_nonpos (le_refl 0)

theorem toByte_neg64 : toByte (-64) = 0 := toByte_of_nonpos (by norm_num)

theorem toByte_100 : toByte 100 = 100 := by
  rw [show (100 : ℚ) = ((100 : ℕ) : ℚ) by norm_num]
  exact toByte_natCast 100 (by norm_num)

theorem toByte_255 : toByte 255 = 255 := by
  rw [show (255 : ℚ) = ((255 : ℕ) : ℚ) by norm_num]
  exact toByte_natCast 255 (by norm_num)

theorem getD_le_of_forall_le {l : List ℕ} {m : ℕ} (h : ∀ x ∈ l, x ≤ m) (p : ℕ) :
    l.getD p 0 ≤ m := by
  rcases Nat.lt_or_ge p l.length with hp | hp
  · rw [List.getD_eq_getElem l 0 hp]
    exact h _ (List.getElem_mem hp)
  · rw [List.getD_eq_default l 0 hp]
    exact Nat.zero_le m

theorem getD_map_of_lt {α β : Type} (f : α → β) (l : List α) {i : ℕ}
    (h : i < l.length) (d : β) (d₀ : α) :
    (l.map f).getD i d = f (l.getD i d₀) := by
  rw [List.getD_eq_getElem?_getD, List.getElem?_map,
    List.getElem?_eq_getElem h, List.getD_eq_getElem l d₀ h]
  rfl

/-! ## Well-formedness of the two concrete rasterizers -/

theorem nearestKernel_wf : Kernel.WF nearestKernel := by
  refine ⟨fun pl sw sh dw dh => ⟨by simp [nearestKernel], ?_⟩,
    fun pl sw sh dw dh => ⟨by simp [nearestKernel], ?_⟩,
    fun pl w h => ⟨by simp [nearestKernel], ?_⟩⟩ <;>
  · intro x hx
    simp only [nearestKernel, List.mem_map, List.mem_range] at hx
    obtain ⟨p, _, rfl⟩ := hx
    exact Nat.min_le_left _ _

theorem boxKernel_wf : Kernel.WF boxKernel := by
  refine ⟨fun pl sw sh dw dh => ⟨by simp [boxKernel], ?_⟩,
    fun pl sw sh dw dh => ⟨by simp [boxKernel], ?_⟩,
    fun pl w h => ⟨by simp [boxKernel], ?_⟩⟩ <;>
  · intro x hx
    simp only [boxKernel, List.mem_map, List.mem_range] at hx
    obtain ⟨p, _, rfl⟩ := hx
    exact Nat.min_le_left _ _

/-! ## Mask red-channel dependence machinery -/

theorem toCanvas_REq {x y : FloatImage} (h : REq x y) :
    x.toCanvas.width = y.toCanvas.width ∧ x.toCanvas.height = y.toCanvas.height ∧
      x.toCanvas.r = y.toCanvas.r := by
  obtain ⟨h1, h2, h3⟩ := h
  refine ⟨h1, h2, ?_⟩
  simp only [FloatImage.toCanvas, h1, h2, h3]

theorem downsampleFloat_REq (k : Kernel) {x y : FloatImage} (h : REq x y) :
    REq (downsampleFloat k x) (downsampleFloat k y) := by
  obtain ⟨hcw, hch, hcr⟩ := toCanvas_REq h
  obtain ⟨h1, h2, h3⟩ := h
  simp only [downsampleFloat]
  rw [show x.toCanvas.width = y.toCanvas.width from hcw,
    show x.toCanvas.height = y.toCanvas.height from hch]
  split
  · exact ⟨h1, h2, h3⟩
  · refine ⟨rfl, rfl, ?_⟩
    simp only [FloatImage.fromCanvas, hcr]

theorem reduceIter_REq (k : Kernel) {x y : FloatImage} (h : REq x y) (i : ℕ) :
    REq (reduceIter k x i) (reduceIter k y i) := by
  induction i with
  | zero => exact h
  | succ n ih => exact downsampleFloat_REq k ih

theorem blendLevel_mask_REq {la lb m m' : FloatImage} (h : REq m m') :
    blendLevel la lb m = blendLevel la lb m' := by
  obtain ⟨_, _, h3⟩ := h
  simp only [blendLevel, h3]

theorem reconstructFrom_dims (k : Kernel) (L : List FloatImage) (n : ℕ)
    (cur : FloatImage) (hn : 1 ≤ n) :
    (reconstructFrom k L n cur).width = (L.getD 0 default).width ∧
      (reconstructFrom k L n cur).height = (L.getD 0 default).height := by
  induction n generalizing cur with
  | zero => omega
  | succ m ih =>
    rw [reconstructFrom]
    rcases Nat.eq_zero_or_pos m with hm | hm
    · subst hm
      rw [reconstructFrom]
      exact addPixels_dims _ _
    · exact ih _ hm

/-! ## Shape of the pipeline output -/

theorem toCanvas_dims (img : FloatImage) :
    img.toCanvas.width = img.width ∧ img.toCanvas.height = img.height :=
  ⟨rfl, rfl⟩

theorem toVisualCanvas_dims (img : FloatImage) :
    img.toVisualCanvas.width = img.width ∧ img.toVisualCanvas.height = img.height :=
  ⟨rfl, rfl⟩

theorem process_laplacians_def (k : Kernel) (cA cB cM : Canvas) (levels : ℕ) :
    (processPyramidBlending k cA cB cM levels).laplacians
      = (blendPyramids
          (laplacianPyramid k (gaussianPyramid k (FloatImage.fromCanvas cA) levels) levels)
          (laplacianPyramid k (gaussianPyramid k (FloatImage.fromCanvas cB) levels) levels)
          (gaussianPyramid k (FloatImage.fromCanvas cM) levels) levels).map
            FloatImage.toVisualCanvas := rfl

theorem process_result_def (k : Kernel) (cA cB cM : Canvas) (levels : ℕ) :
    (processPyramidBlending k cA cB cM levels).result
      = (reconstruct k
          (blendPyramids
            (laplacianPyramid k (gaussianPyramid k (FloatImage.fromCanvas cA) levels) levels)
            (laplacianPyramid k (gaussianPyramid k (FloatImage.fromCanvas cB) levels) levels)
            (gaussianPyramid k (FloatImage.fromCanvas cM) levels) levels) levels).toCanvas := rfl

theorem blendPyramids_getD_dims (LA LB GM : List FloatImage) {levels i : ℕ}
    (hi : i ≤ levels) :
    ((blendPyramids LA LB GM levels).getD i default).width = (LA.getD i default).width ∧
      ((blendPyramids LA LB GM levels).getD i default).height = (LA.getD i default).height := by
  rw [blendPyramids_getD _ _ _ hi]
  exact blendLevel_dims _ _ _

theorem pipeline_level_dims (k : Kernel) (img : FloatImage) (LB GM : List FloatImage)
    {levels i : ℕ} (hi : i ≤ levels) :
    (((blendPyramids (laplacianPyramid k (gaussianPyramid k img levels) levels)
          LB GM levels).getD i default).width,
      ((blendPyramids (laplacianPyramid k (gaussianPyramid k img levels) levels)
          LB GM levels).getD i default).height)
      = dimStep^[i] (img.width, img.height) := by
  obtain ⟨hw, hh⟩ :=
    blendPyramids_getD_dims (laplacianPyramid k (gaussianPyramid k img levels) levels) LB GM hi
  obtain ⟨hw2, hh2⟩ := laplacianPyramid_getD_dims k (gaussianPyramid k img levels) hi
  rw [hw, hh, hw2, hh2, gaussianPyramid_getD k img hi]
  exact reduceIter_dims k img i

theorem process_shape (k : Kernel) (cA cB cM : Canvas) (levels : ℕ) :
    (processPyramidBlending k cA cB cM levels).result.width = cA.width ∧
    (processPyramidBlending k cA cB cM levels).result.height = cA.height ∧
    (processPyramidBlending k cA cB cM levels).laplacians.length = levels + 1 ∧
    ∀ i, i ≤ levels →
      ((processPyramidBlending k cA cB cM levels).laplacians.getD i default).width
          = (dimStep^[i] (cA.width, cA.height)).1 ∧
      ((processPyramidBlending k cA cB cM levels).laplacians.getD i default).height
          = (dimStep^[i] (cA.width, cA.height)).2 := by
  rw [process_laplacians_def, process_result_def]
  have hdims : ∀ i, i ≤ levels →
      (((blendPyramids
            (laplacianPyramid k (gaussianPyramid k (FloatImage.fromCanvas cA) levels) levels)
            (laplacianPyramid k (gaussianPyramid k (FloatImage.fromCanvas cB) levels) levels)
            (gaussianPyramid k (FloatImage.fromCanvas cM) levels) levels).getD i default).width,
        ((blendPyramids
            (laplacianPyramid k (gaussianPyramid k (FloatImage.fromCanvas cA) levels) levels)
            (laplacianPyramid k (gaussianPyramid k (FloatImage.fromCanvas cB) levels) levels)
            (gaussianPyramid k (FloatImage.fromCanvas cM) levels) levels).getD i default).height)
        = dimStep^[i] (cA.width, cA.height) :=
    fun i hi => pipeline_level_dims k (FloatImage.fromCanvas cA) _ _ hi
  have h0 := hdims 0 (Nat.zero_le _)
  simp only [Function.iterate_zero, id_eq, Prod.mk.injEq] at h0
  obtain ⟨h0w, h0h⟩ := h0
  have hrec :
      (reconstruct k
        (blendPyramids
          (laplacianPyramid k (gaussianPyramid k (FloatImage.fromCanvas cA) levels) levels)
          (laplacianPyramid k (gaussianPyramid k (FloatImage.fromCanvas cB) levels) levels)
          (gaussianPyramid k (FloatImage.fromCanvas cM) levels) levels) levels).width = cA.width ∧
      (reconstruct k
        (blendPyramids
          (laplacianPyramid k (gaussianPyramid k (FloatImage.fromCanvas cA) levels) levels)
          (laplacianPyramid k (gaussianPyramid k (FloatImage.fromCanvas cB) levels) levels)
          (gaussianPyramid k (FloatImage.fromCanvas cM) levels) levels) levels).height = cA.height := by
    rcases Nat.eq_zero_or_pos levels with h | h
    · subst h
      rw [reconstruct, reconstructFrom]
      exact ⟨h0w, h0h⟩
    · obtain ⟨hrw, hrh⟩ := reconstructFrom_dims k
        (blendPyramids
          (laplacianPyramid k (gaussianPyramid k (FloatImage.fromCanvas cA) levels) levels)
          (laplacianPyramid k (gaussianPyramid k (FloatImage.fromCanvas cB) levels) levels)
          (gaussianPyramid k (FloatImage.fromCanvas cM) levels) levels) levels
        ((blendPyramids
          (laplacianPyramid k (gaussianPyramid k (FloatImage.fromCanvas cA) levels) levels)
          (laplacianPyramid k (gaussianPyramid k (FloatImage.fromCanvas cB) levels) levels)
          (gaussianPyramid k (FloatImage.fromCanvas cM) levels) levels).getD levels default) h
      rw [reconstruct]
      constructor
      · rw [hrw, h0w]
      · rw [hrh, h0h]
  refine ⟨hrec.1, hrec.2, ?_, ?_⟩
  · rw [List.length_map]
    exact blendPyramids_length _ _ _ _
  · intro i hi
    have hlt : i < (blendPyramids
        (laplacianPyramid k (gaussianPyramid k (FloatImage.fromCanvas cA) levels) levels)
        (laplacianPyramid k (gaussianPyramid k (FloatImage.fromCanvas cB) levels) levels)
        (gaussianPyramid k (FloatImage.fromCanvas cM) levels) levels).length := by
      rw [blendPyramids_length]
      omega
    rw [getD_map_of_lt _ _ hlt _ default]
    have hi2 := hdims i hi
    rw [Prod.mk.injEq] at hi2
    exact hi2

/-! ## Claim C10 -/

/-- Claim C10: Reduce (`downsampleFloat`) is total and never produces a
zero-area raster: whenever `⌊width/2⌋ = 0` or `⌊height/2⌋ = 0` it returns
the input raster itself unchanged (both dimensions frozen, including the
non-degenerate one), so every level of every Gaussian pyramid has width
≥ 1 and height ≥ 1 whenever the level-0 raster does. -/
theorem downsample_total_no_zero_area (k : Kernel) (img : FloatImage) :
    ((img.width / 2 = 0 ∨ img.height / 2 = 0) → downsampleFloat k img = img) ∧
    (∀ levels i, i ≤ levels → 1 ≤ img.width → 1 ≤ img.height →
      1 ≤ ((gaussianPyramid k img levels).getD i default).width ∧
      1 ≤ ((gaussianPyramid k img levels).getD i default).height) := by
  constructor
  · intro h
    simp only [downsampleFloat, FloatImage.toCanvas]
    rw [if_pos h]
  · intro levels i hi hw hh
    rw [gaussianPyramid_getD k img hi]
    have hd := reduceIter_dims k img i
    rw [Prod.mk.injEq] at hd
    obtain ⟨hdw, hdh⟩ := hd
    rw [hdw, hdh]
    exact dimStep_iterate_ge_one i hw hh

/-- Witness for `downsample_total_no_zero_area` at a concrete 1×1 input. -/
theorem downsample_total_no_zero_area_witness :
    downsampleFloat nearestKernel (FloatImage.fromCanvas canvasOne)
        = FloatImage.fromCanvas canvasOne ∧
    (1 ≤ ((gaussianPyramid nearestKernel (FloatImage.fromCanvas canvasOne) 2).getD 1
        default).width ∧
      1 ≤ ((gaussianPyramid nearestKernel (FloatImage.fromCanvas canvasOne) 2).getD 1
        default).height) :=
  ⟨(downsample_total_no_zero_area nearestKernel (FloatImage.fromCanvas canvasOne)).1
      (by decide),
    (downsample_total_no_zero_area nearestKernel (FloatImage.fromCanvas canvasOne)).2 2 1
      (by decide) (by decide) (by decide)⟩

/-! ## Claim C2 -/

/-- Claim C2 counterexample: for a 1×4 source, level 1 of the Gaussian
pyramid has height 4 (`downsampleFloat` froze both dimensions because the
width would halve to 0), while the claimed `max(1, ⌊H/2^i⌋)` formula
gives 2. -/
theorem gaussian_dims_formula_fails :
    ((gaussianPyramid nearestKernel (FloatImage.fromCanvas canvasTall) 1).getD 1
        default).height ≠ max 1 (canvasTall.height / 2 ^ 1) := by decide

/-- Claim C2, amended: Level `i` of the Gaussian pyramid has the dimensions
obtained by `i`-fold application of the halving step that freezes *both*
dimensions as soon as either would floor to 0; in particular, when both
source dimensions are at least `2^i`, they equal the claimed
`max(1, ⌊W/2^i⌋) × max(1, ⌊H/2^i⌋)`.  Once either dimension reaches 1 the
other stops halving as well. -/
theorem gaussian_level_dims (k : Kernel) (img : FloatImage) {levels i : ℕ}
    (hi : i ≤ levels) :
    (((gaussianPyramid k img levels).getD i default).width,
        ((gaussianPyramid k img levels).getD i default).height)
      = dimStep^[i] (img.width, img.height) ∧
    (2 ^ i ≤ img.width → 2 ^ i ≤ img.height →
      ((gaussianPyramid k img levels).getD i default).width
          = max 1 (img.width / 2 ^ i) ∧
      ((gaussianPyramid k img levels).getD i default).height
          = max 1 (img.height / 2 ^ i)) := by
  rw [gaussianPyramid_getD k img hi]
  refine ⟨reduceIter_dims k img i, fun hw hh => ?_⟩
  have hd := reduceIter_dims k img i
  rw [dimStep_iterate_of_le i hw hh, Prod.mk.injEq] at hd
  obtain ⟨hdw, hdh⟩ := hd
  have h2 : (0 : ℕ) < 2 ^ i := Nat.pos_pow_of_pos i (by norm_num)
  rw [hdw, hdh, max_eq_right ((Nat.one_le_div_iff h2).2 hw),
    max_eq_right ((Nat.one_le_div_iff h2).2 hh)]
  exact ⟨rfl, rfl⟩

/-- Witness for `gaussian_level_dims` at a concrete 4×4 input, depth 2. -/
theorem gaussian_level_dims_witness :
    ((((gaussianPyramid nearestKernel (FloatImage.fromCanvas canvasSquare) 2).getD 2
          default).width,
        (((gaussianPyramid nearestKernel (FloatImage.fromCanvas canvasSquare) 2).getD 2
          default)).height)
      = dimStep^[2] ((FloatImage.fromCanvas canvasSquare).width,
          (FloatImage.fromCanvas canvasSquare).height)) ∧
    (((gaussianPyramid nearestKernel (FloatImage.fromCanvas canvasSquare) 2).getD 2
        default).width
        = max 1 ((FloatImage.fromCanvas canvasSquare).width / 2 ^ 2) ∧
      ((gaussianPyramid nearestKernel (FloatImage.fromCanvas canvasSquare) 2).getD 2
        default).height
        = max 1 ((FloatImage.fromCanvas canvasSquare).height / 2 ^ 2)) :=
  ⟨(gaussian_level_dims nearestKernel (FloatImage.fromCanvas canvasSquare)
      (le_refl 2)).1,
    (gaussian_level_dims nearestKernel (FloatImage.fromCanvas canvasSquare)
      (le_refl 2)).2 (by decide) (by decide)⟩

/-! ## Claim C7 -/

/-- Claim C7: For equal-sized inputs and any `levels`, the blend result has
image A's dimensions, and the returned `laplacians` array has exactly
`levels + 1` entries ordered finest to coarsest (entry `i` has the level-`i`
pyramid dimensions). -/
theorem blend_output_shape (k : Kernel) (cA cB cM : Canvas) (levels : ℕ)
    (_hwB : cA.width = cB.width) (_hwM : cA.width = cM.width)
    (_hhB : cA.height = cB.height) (_hhM : cA.height = cM.height) :
    (processPyramidBlending k cA cB cM levels).result.width = cA.width ∧
    (processPyramidBlending k cA cB cM levels).result.height = cA.height ∧
    (processPyramidBlending k cA cB cM levels).laplacians.length = levels + 1 ∧
    ∀ i, i ≤ levels →
      ((processPyramidBlending k cA cB cM levels).laplacians.getD i default).width
          = (dimStep^[i] (cA.width, cA.height)).1 ∧
      ((processPyramidBlending k cA cB cM levels).laplacians.getD i default).height
          = (dimStep^[i] (cA.width, cA.height)).2 :=
  process_shape k cA cB cM levels

/-- Witness for `blend_output_shape` at equal-sized 2×2 inputs, depth 1. -/
theorem blend_output_shape_witness :
    (processPyramidBlending nearestKernel canvasTwo canvasTwo canvasTwo 1).result.width
        = canvasTwo.width ∧
    (processPyramidBlending nearestKernel canvasTwo canvasTwo canvasTwo 1).result.height
        = canvasTwo.height ∧
    (processPyramidBlending nearestKernel canvasTwo canvasTwo canvasTwo 1).laplacians.length
        = 1 + 1 ∧
    ∀ i, i ≤ 1 →
      ((processPyramidBlending nearestKernel canvasTwo canvasTwo canvasTwo
          1).laplacians.getD i default).width
          = (dimStep^[i] (canvasTwo.width, canvasTwo.height)).1 ∧
      ((processPyramidBlending nearestKernel canvasTwo canvasTwo canvasTwo
          1).laplacians.getD i default).height
          = (dimStep^[i] (canvasTwo.width, canvasTwo.height)).2 :=
  blend_output_shape nearestKernel canvasTwo canvasTwo canvasTwo 1 rfl rfl rfl rfl

/-! ## Claim C3 -/

/-- Claim C3, amended: `processPyramidBlending` performs no precondition
validation: its return type has no error variant and it is a total
function that produces a result of image A's dimensions and `levels + 1`
blended detail levels for *arbitrary* inputs — there is no
`DimensionMismatch` or `InvalidLevels` rejection path. -/
theorem blend_never_rejects (k : Kernel) (cA cB cM : Canvas) (levels : ℕ) :
    (processPyramidBlending k cA cB cM levels).result.width = cA.width ∧
    (processPyramidBlending k cA cB cM levels).result.height = cA.height ∧
    (processPyramidBlending k cA cB cM levels).laplacians.length = levels + 1 :=
  ⟨(process_shape k cA cB cM levels).1, (process_shape k cA cB cM levels).2.1,
    (process_shape k cA cB cM levels).2.2.1⟩

/-! ## Claim C4 -/

/-- Claim C4, amended: At every pyramid level `i ≤ levels` and pixel `p`,
*each* output channel is blended with the weight read from the **red**
channel of the Gaussian-smoothed mask:
`blended_i.c[p] = LA_i.c[p] * (mask_i.red[p]/255) + LB_i.c[p] * (1 - mask_i.red[p]/255)`
for every channel `c`; the blended pyramid has `levels + 1` entries. -/
theorem blend_uses_mask_red (LA LB GM : List FloatImage) (levels i p : ℕ)
    (hi : i ≤ levels)
    (hp : p < (LA.getD i default).width * (LA.getD i default).height) :
    (((blendPyramids LA LB GM levels).getD i default).r.getD p 0
        = (LA.getD i default).r.getD p 0 * ((GM.getD i default).r.getD p 0 / 255)
          + (LB.getD i default).r.getD p 0
            * (1 - (GM.getD i default).r.getD p 0 / 255)) ∧
    (((blendPyramids LA LB GM levels).getD i default).g.getD p 0
        = (LA.getD i default).g.getD p 0 * ((GM.getD i default).r.getD p 0 / 255)
          + (LB.getD i default).g.getD p 0
            * (1 - (GM.getD i default).r.getD p 0 / 255)) ∧
    (((blendPyramids LA LB GM levels).getD i default).b.getD p 0
        = (LA.getD i default).b.getD p 0 * ((GM.getD i default).r.getD p 0 / 255)
          + (LB.getD i default).b.getD p 0
            * (1 - (GM.getD i default).r.getD p 0 / 255)) ∧
    (blendPyramids LA LB GM levels).length = levels + 1 := by
  rw [blendPyramids_getD _ _ _ hi]
  refine ⟨?_, ?_, ?_, blendPyramids_length _ _ _ _⟩ <;>
  · simp only [blendLevel]
    exact getD_range_map _ _ hp

/-- Witness for `blend_uses_mask_red` at concrete 1×1 pyramids, level 0. -/
theorem blend_uses_mask_red_witness :
    (((blendPyramids [FloatImage.fromCanvas canvasA4] [FloatImage.fromCanvas canvasB4]
          [FloatImage.fromCanvas canvasM4] 0).getD 0 default).r.getD 0 0
        = ([FloatImage.fromCanvas canvasA4].getD 0 default).r.getD 0 0
            * (([FloatImage.fromCanvas canvasM4].getD 0 default).r.getD 0 0 / 255)
          + ([FloatImage.fromCanvas canvasB4].getD 0 default).r.getD 0 0
            * (1 - ([FloatImage.fromCanvas canvasM4].getD 0 default).r.getD 0 0 / 255)) ∧
    (((blendPyramids [FloatImage.fromCanvas canvasA4] [FloatImage.fromCanvas canvasB4]
          [FloatImage.fromCanvas canvasM4] 0).getD 0 default).g.getD 0 0
        = ([FloatImage.fromCanvas canvasA4].getD 0 default).g.getD 0 0
            * (([FloatImage.fromCanvas canvasM4].getD 0 default).r.getD 0 0 / 255)
          + ([FloatImage.fromCanvas canvasB4].getD 0 default).g.getD 0 0
            * (1 - ([FloatImage.fromCanvas canvasM4].getD 0 default).r.getD 0 0 / 255)) ∧
    (((blendPyramids [FloatImage.fromCanvas canvasA4] [FloatImage.fromCanvas canvasB4]
          [FloatImage.fromCanvas canvasM4] 0).getD 0 default).b.getD 0 0
        = ([FloatImage.fromCanvas canvasA4].getD 0 default).b.getD 0 0
            * (([FloatImage.fromCanvas canvasM4].getD 0 default).r.getD 0 0 / 255)
          + ([FloatImage.fromCanvas canvasB4].getD 0 default).b.getD 0 0
            * (1 - ([FloatImage.fromCanvas canvasM4].getD 0 default).r.getD 0 0 / 255)) ∧
    (blendPyramids [FloatImage.fromCanvas canvasA4] [FloatImage.fromCanvas canvasB4]
        [FloatImage.fromCanvas canvasM4] 0).length = 0 + 1 :=
  blend_uses_mask_red [FloatImage.fromCanvas canvasA4] [FloatImage.fromCanvas canvasB4]
    [FloatImage.fromCanvas canvasM4] 0 0 0 (by decide) (by decide)

/-! ## Claim C6 -/

/-- Claim C6: For every Gaussian pyramid `G` of depth `levels`, the derived
Laplacian pyramid satisfies `L[i] = G[i] − Expand(G[i+1], G[i].width,
G[i].height)` per channel per pixel as a signed, unclamped subtraction for
`i < levels`, and `L[levels] = G[levels]` exactly. -/
theorem laplacian_structure (k : Kernel) (G : List FloatImage) (levels : ℕ) :
    (∀ i, i < levels →
      ∀ p, p < (G.getD i default).width * (G.getD i default).height →
        ((laplacianPyramid k G levels).getD i default).r.getD p 0
            = (G.getD i default).r.getD p 0
              - (upsampleFloat k (G.getD (i + 1) default) (G.getD i default).width
                  (G.getD i default).height).r.getD p 0 ∧
        ((laplacianPyramid k G levels).getD i default).g.getD p 0
            = (G.getD i default).g.getD p 0
              - (upsampleFloat k (G.getD (i + 1) default) (G.getD i default).width
                  (G.getD i default).height).g.getD p 0 ∧
        ((laplacianPyramid k G levels).getD i default).b.getD p 0
            = (G.getD i default).b.getD p 0
              - (upsampleFloat k (G.getD (i + 1) default) (G.getD i default).width
                  (G.getD i default).height).b.getD p 0) ∧
    (laplacianPyramid k G levels).getD levels default = G.getD levels default := by
  refine ⟨fun i hi p hp => ?_, laplacianPyramid_getD_top k G levels default⟩
  rw [laplacianPyramid_getD_lt k G hi]
  refine ⟨?_, ?_, ?_⟩ <;>
  · simp only [subPixels]
    exact getD_range_map _ _ hp

/-- Witness for `laplacian_structure` on a concrete depth-1 pyramid. -/
theorem laplacian_structure_witness :
    ((laplacianPyramid nearestKernel
        (gaussianPyramid nearestKernel (FloatImage.fromCanvas canvasTwo) 1) 1).getD 0
          default).r.getD 0 0
        = ((gaussianPyramid nearestKernel (FloatImage.fromCanvas canvasTwo) 1).getD 0
            default).r.getD 0 0
          - (upsampleFloat nearestKernel
              ((gaussianPyramid nearestKernel (FloatImage.fromCanvas canvasTwo) 1).getD 1
                default)
              ((gaussianPyramid nearestKernel (FloatImage.fromCanvas canvasTwo) 1).getD 0
                default).width
              ((gaussianPyramid nearestKernel (FloatImage.fromCanvas canvasTwo) 1).getD 0
                default).height).r.getD 0 0 ∧
    (laplacianPyramid nearestKernel
        (gaussianPyramid nearestKernel (FloatImage.fromCanvas canvasTwo) 1) 1).getD 1 default
      = (gaussianPyramid nearestKernel (FloatImage.fromCanvas canvasTwo) 1).getD 1 default :=
  ⟨((laplacian_structure nearestKernel
      (gaussianPyramid nearestKernel (FloatImage.fromCanvas canvasTwo) 1) 1).1 0
      (by decide) 0 (by decide)).1,
    (laplacian_structure nearestKernel
      (gaussianPyramid nearestKernel (FloatImage.fromCanvas canvasTwo) 1) 1).2⟩

/-! ## Claim C8 -/

/-- Claim C8: The visualize-band conversion maps every sample `v` to
`toByte (v + 128)` — the 128 offset applied before the clamp to `[0, 255]`
(with the 8-bit rounding a displayable value entails) — while the plain
display conversion maps `v` to `toByte v` with no offset; and inside
`processPyramidBlending` the offset mode is used exactly for the returned
inspection `laplacians`, while the arithmetic pipeline's `result` goes
through the plain conversion. -/
theorem visual_band_conversion :
    (∀ (img : FloatImage) (p : ℕ), p < img.width * img.height →
      (img.toVisualCanvas.r.getD p 0 = toByte (img.r.getD p 0 + 128) ∧
        img.toVisualCanvas.g.getD p 0 = toByte (img.g.getD p 0 + 128) ∧
        img.toVisualCanvas.b.getD p 0 = toByte (img.b.getD p 0 + 128)) ∧
      (img.toCanvas.r.getD p 0 = toByte (img.r.getD p 0) ∧
        img.toCanvas.g.getD p 0 = toByte (img.g.getD p 0) ∧
        img.toCanvas.b.getD p 0 = toByte (img.b.getD p 0))) ∧
    ∀ (k : Kernel) (cA cB cM : Canvas) (levels : ℕ),
      (processPyramidBlending k cA cB cM levels).laplacians
        = (blendPyramids
            (laplacianPyramid k (gaussianPyramid k (FloatImage.fromCanvas cA) levels) levels)
            (laplacianPyramid k (gaussianPyramid k (FloatImage.fromCanvas cB) levels) levels)
            (gaussianPyramid k (FloatImage.fromCanvas cM) levels) levels).map
              FloatImage.toVisualCanvas ∧
      (processPyramidBlending k cA cB cM levels).result
        = (reconstruct k
            (blendPyramids
              (laplacianPyramid k (gaussianPyramid k (FloatImage.fromCanvas cA) levels) levels)
              (laplacianPyramid k (gaussianPyramid k (FloatImage.fromCanvas cB) levels) levels)
              (gaussianPyramid k (FloatImage.fromCanvas cM) levels) levels)
            levels).toCanvas := by
  refine ⟨fun img p hp => ⟨⟨?_, ?_, ?_⟩, ?_, ?_, ?_⟩,
    fun k cA cB cM levels => ⟨rfl, rfl⟩⟩
  · simp only [FloatImage.toVisualCanvas]
    exact getD_range_map _ _ hp
  · simp only [FloatImage.toVisualCanvas]
    exact getD_range_map _ _ hp
  · simp only [FloatImage.toVisualCanvas]
    exact getD_range_map _ _ hp
  · simp only [FloatImage.toCanvas]
    exact getD_range_map _ _ hp
  · simp only [FloatImage.toCanvas]
    exact getD_range_map _ _ hp
  · simp only [FloatImage.toCanvas]
    exact getD_range_map _ _ hp

/-- Witness for `visual_band_conversion` at a concrete signed sample. -/
theorem visual_band_conversion_witness :
    (negDetail.toVisualCanvas.r.getD 0 0 = toByte (negDetail.r.getD 0 0 + 128) ∧
      negDetail.toVisualCanvas.g.getD 0 0 = toByte (negDetail.g.getD 0 0 + 128) ∧
      negDetail.toVisualCanvas.b.getD 0 0 = toByte (negDetail.b.getD 0 0 + 128)) ∧
    (negDetail.toCanvas.r.getD 0 0 = toByte (negDetail.r.getD 0 0) ∧
      negDetail.toCanvas.g.getD 0 0 = toByte (negDetail.g.getD 0 0) ∧
      negDetail.toCanvas.b.getD 0 0 = toByte (negDetail.b.getD 0 0)) :=
  visual_band_conversion.1 negDetail 0 (by decide)

/-! ## Claim C9 -/

theorem blendPyramids_gauss_mask_REq (k : Kernel) {m m' : FloatImage} (h : REq m m')
    (LA LB : List FloatImage) (levels : ℕ) :
    blendPyramids LA LB (gaussianPyramid k m levels) levels
      = blendPyramids LA LB (gaussianPyramid k m' levels) levels := by
  unfold blendPyramids
  apply List.map_congr_left
  intro i hi
  rw [List.mem_range] at hi
  have hi' : i ≤ levels := Nat.lt_succ_iff.1 hi
  rw [gaussianPyramid_getD k m hi', gaussianPyramid_getD k m' hi']
  exact blendLevel_mask_REq (reduceIter_REq k h i)

/-- Claim C9: The blend output depends on the mask only through its red
channel: masks agreeing on dimensions and the red channel (but arbitrary
in green/blue) give identical `result` and `laplacianLevels`, because the
per-pixel weight is read from the mask's red channel for all three output
channels. -/
theorem blend_depends_only_on_mask_red (k : Kernel) (cA cB cM cM' : Canvas)
    (levels : ℕ) (hw : cM.width = cM'.width) (hh : cM.height = cM'.height)
    (hr : cM.r = cM'.r) :
    (processPyramidBlending k cA cB cM levels).result
        = (processPyramidBlending k cA cB cM' levels).result ∧
    (processPyramidBlending k cA cB cM levels).laplacians
        = (processPyramidBlending k cA cB cM' levels).laplacians := by
  have hM : REq (FloatImage.fromCanvas cM) (FloatImage.fromCanvas cM') := by
    refine ⟨hw, hh, ?_⟩
    simp only [FloatImage.fromCanvas, hw, hh, hr]
  have hB := blendPyramids_gauss_mask_REq k hM
    (laplacianPyramid k (gaussianPyramid k (FloatImage.fromCanvas cA) levels) levels)
    (laplacianPyramid k (gaussianPyramid k (FloatImage.fromCanvas cB) levels) levels) levels
  constructor
  · rw [process_result_def, process_result_def, hB]
  · rw [process_laplacians_def, process_laplacians_def, hB]

/-- Witness for `blend_depends_only_on_mask_red`: the two 1×1 masks agree
on red but differ on green and blue. -/
theorem blend_depends_only_on_mask_red_witness :
    (processPyramidBlending nearestKernel canvasA4 canvasB4 canvasM4 0).result
        = (processPyramidBlending nearestKernel canvasA4 canvasB4 canvasM9 0).result ∧
    (processPyramidBlending nearestKernel canvasA4 canvasB4 canvasM4 0).laplacians
        = (processPyramidBlending nearestKernel canvasA4 canvasB4 canvasM9 0).laplacians :=
  blend_depends_only_on_mask_red nearestKernel canvasA4 canvasB4 canvasM4 canvasM9 0
    rfl rfl rfl

/-! ## Claim C5 -/

/-- Claim C5, amended: Relative to a fixed platform rasterizer (`Kernel`),
Reduce, Expand and the whole blend pipeline are pure deterministic
functions: identical inputs give bit-identical outputs.  (The rasterizer
itself is platform-dependent — see the counterexample.) -/
theorem pipeline_deterministic_given_kernel (k : Kernel) (cA cB cM cA' cB' cM' : Canvas)
    (levels levels' : ℕ) (img img' : FloatImage) (tw th tw' th' : ℕ)
    (hA : cA = cA') (hB : cB = cB') (hM : cM = cM') (hl : levels = levels')
    (hi : img = img') (htw : tw = tw') (hth : th = th') :
    downsampleFloat k img = downsampleFloat k img' ∧
    upsampleFloat k img tw th = upsampleFloat k img' tw' th' ∧
    processPyramidBlending k cA cB cM levels
      = processPyramidBlending k cA' cB' cM' levels' := by
  subst hA
  subst hB
  subst hM
  subst hl
  subst hi
  subst htw
  subst hth
  exact ⟨rfl, rfl, rfl⟩

/-- Witness for `pipeline_deterministic_given_kernel` at concrete inputs. -/
theorem pipeline_deterministic_given_kernel_witness :
    downsampleFloat nearestKernel negDetail = downsampleFloat nearestKernel negDetail ∧
    upsampleFloat nearestKernel negDetail 1 1 = upsampleFloat nearestKernel negDetail 1 1 ∧
    processPyramidBlending nearestKernel canvasTwo canvasTwo canvasTwo 1
      = processPyramidBlending nearestKernel canvasTwo canvasTwo canvasTwo 1 :=
  pipeline_deterministic_given_kernel nearestKernel canvasTwo canvasTwo canvasTwo
    canvasTwo canvasTwo canvasTwo 1 1 negDetail negDetail 1 1 1 1
    rfl rfl rfl rfl rfl rfl rfl

/-! ## Claim C1 -/

/-- Claim C1, code-bug evidence: both resampling operators route
their input through an 8-bit canvas (`FloatImage.toCanvas`, which clamps
to `[0, 255]` and rounds) before the platform draw, so for *every*
well-formed rasterizer every sample of `upsampleFloat`'s output — and of
`downsampleFloat`'s output on its non-degenerate branch — lies in
`[0, 255]`.  Negative or above-255 samples of the input are therefore
never preserved by Expand, contradicting the claim that intermediate
pyramid arithmetic never clamps. -/
theorem resample_output_clamped (k : Kernel) (hk : k.WF) (img : FloatImage)
    (tw th : ℕ) :
    (∀ x ∈ (upsampleFloat k img tw th).r, 0 ≤ x ∧ x ≤ 255) ∧
    (∀ x ∈ (upsampleFloat k img tw th).g, 0 ≤ x ∧ x ≤ 255) ∧
    (∀ x ∈ (upsampleFloat k img tw th).b, 0 ≤ x ∧ x ≤ 255) ∧
    (¬(img.width / 2 = 0 ∨ img.height / 2 = 0) →
      ∀ x ∈ (downsampleFloat k img).r, 0 ≤ x ∧ x ≤ 255) := by
  refine ⟨?_, ?_, ?_, ?_⟩
  · intro x hx
    simp only [upsampleFloat, FloatImage.fromCanvas, List.mem_map, List.mem_range] at hx
    obtain ⟨p, _, rfl⟩ := hx
    refine ⟨by positivity, ?_⟩
    exact_mod_cast getD_le_of_forall_le (hk.2.2 _ tw th).2 p
  · intro x hx
    simp only [upsampleFloat, FloatImage.fromCanvas, List.mem_map, List.mem_range] at hx
    obtain ⟨p, _, rfl⟩ := hx
    refine ⟨by positivity, ?_⟩
    exact_mod_cast getD_le_of_forall_le (hk.2.2 _ tw th).2 p
  · intro x hx
    simp only [upsampleFloat, FloatImage.fromCanvas, List.mem_map, List.mem_range] at hx
    obtain ⟨p, _, rfl⟩ := hx
    refine ⟨by positivity, ?_⟩
    exact_mod_cast getD_le_of_forall_le (hk.2.2 _ tw th).2 p
  · intro hc x hx
    simp only [downsampleFloat, FloatImage.toCanvas] at hx
    rw [if_neg hc] at hx
    simp only [FloatImage.fromCanvas, List.mem_map, List.mem_range] at hx
    obtain ⟨p, _, rfl⟩ := hx
    refine ⟨by positivity, ?_⟩
    exact_mod_cast getD_le_of_forall_le (hk.1 _ _ _ _ _).2 p

/-- Witness for `resample_output_clamped`: Expand applied to a raster
holding the sample −64 yields the clamped sample 0, whose bounds the
theorem certifies. -/
theorem resample_output_clamped_witness :
    (0 : ℚ) ≤ ((0 : ℕ) : ℚ) ∧ ((0 : ℕ) : ℚ) ≤ 255 := by
  refine (resample_output_clamped nearestKernel nearestKernel_wf negDetail 1 1).1
    ((0 : ℕ) : ℚ) ?_
  have hr : (upsampleFloat nearestKernel negDetail 1 1).r = [((0 : ℕ) : ℚ)] := by
    simp [upsampleFloat, FloatImage.fromCanvas, FloatImage.toCanvas, negDetail,
      nearestKernel, range_one, toByte_neg64]
  rw [hr]
  exact List.mem_singleton.mpr rfl

/-! ## Counterexample for claim C4 -/

/-- Claim C4 counterexample: at level 0, pixel 0, with a mask whose red
channel is 255 but whose green channel is 0, the blended green sample does
*not* satisfy the claimed per-channel formula
`blended.g = LA.g * (mask.g/255) + LB.g * (1 − mask.g/255)` (the code
computes 100 using the red-channel weight; the formula would give 200). -/
theorem blend_channelwise_alpha_fails :
    ¬ (((blendPyramids
          (laplacianPyramid nearestKernel
            (gaussianPyramid nearestKernel (FloatImage.fromCanvas canvasA4) 0) 0)
          (laplacianPyramid nearestKernel
            (gaussianPyramid nearestKernel (FloatImage.fromCanvas canvasB4) 0) 0)
          (gaussianPyramid nearestKernel (FloatImage.fromCanvas canvasM4) 0) 0).getD 0
            default).g.getD 0 0
        = ((laplacianPyramid nearestKernel
            (gaussianPyramid nearestKernel (FloatImage.fromCanvas canvasA4) 0) 0).getD 0
              default).g.getD 0 0
            * (((gaussianPyramid nearestKernel (FloatImage.fromCanvas canvasM4) 0).getD 0
              default).g.getD 0 0 / 255)
          + ((laplacianPyramid nearestKernel
            (gaussianPyramid nearestKernel (FloatImage.fromCanvas canvasB4) 0) 0).getD 0
              default).g.getD 0 0
            * (1 - ((gaussianPyramid nearestKernel (FloatImage.fromCanvas canvasM4) 0).getD
              0 default).g.getD 0 0 / 255)) := by
  intro h
  simp [blendPyramids, blendLevel, laplacianPyramid, gaussianPyramid, reduceIter,
    FloatImage.fromCanvas, canvasA4, canvasB4, canvasM4, range_one,
    List.range_zero, List.range_succ] at h

/-! ## Counterexample for claim C5 -/

/-- Claim C5 counterexample: the output of Reduce depends on the platform's
canvas rasterizer.  `nearestKernel` (point sampling, as with image
smoothing disabled) and `boxKernel` (2×2 box averaging, a bilinear
smoothing browser) are both well-formed canvas draw behaviours, yet they
give different `downsampleFloat` outputs on the same raster — the
filtering the source delegates to `drawImage` / `blur(2px)` is
platform-dependent, so invocations on two platforms need not be
bit-identical. -/
theorem downsample_platform_dependent :
    downsampleFloat nearestKernel (FloatImage.fromCanvas canvasTwo)
      ≠ downsampleFloat boxKernel (FloatImage.fromCanvas canvasTwo) := by
  have h1 : (downsampleFloat nearestKernel (FloatImage.fromCanvas canvasTwo)).r
      = [((0 : ℕ) : ℚ)] := by
    simp only [downsampleFloat, FloatImage.toCanvas, FloatImage.fromCanvas, canvasTwo]
    rw [if_neg (by norm_num)]
    simp [FloatImage.fromCanvas, nearestKernel, range_one, range_four,
      toByte_zero, toByte_255]
  have h2 : (downsampleFloat boxKernel (FloatImage.fromCanvas canvasTwo)).r
      = [((191 : ℕ) : ℚ)] := by
    simp only [downsampleFloat, FloatImage.toCanvas, FloatImage.fromCanvas, canvasTwo]
    rw [if_neg (by norm_num)]
    simp [FloatImage.fromCanvas, boxKernel, range_one, range_four,
      toByte_zero, toByte_255]
  intro h
  rw [h, h2] at h1
  simp at h1

/-! ## Counterexample for claim C3 -/

/-- Claim C3 counterexample: with image A 1×1 but image B and the mask 2×2
(unequal widths), `processPyramidBlending` silently computes and returns a
1×1 result — image A carried through with blend weight 1 — instead of
rejecting the input with a `DimensionMismatch` error before any
computation. -/
theorem blend_silently_computes_on_mismatch :
    canvasOne.width ≠ canvasBigB.width ∧
    (processPyramidBlending nearestKernel canvasOne canvasBigB canvasBigM 0).result
      = { width := 1, height := 1, r := [100], g := [100], b := [100] } := by
  constructor
  · decide
  · simp [processPyramidBlending, reconstruct, reconstructFrom, blendPyramids,
      blendLevel, laplacianPyramid, gaussianPyramid, reduceIter, FloatImage.fromCanvas,
      FloatImage.toCanvas, canvasOne, canvasBigB, canvasBigM, range_one,
      List.range_zero, List.range_succ, List.replicate, toByte_100]

end ImageBlend
